import Mathlib

/-!
# Verification of the OS time library (`src/lib_os.c`)

Shallow embedding of the `os.date` / `os.time` core of the library:
the calendar-record codec (`os_time` with a table, `os_date` with the
`"*t"` sentinel) and the adaptive text formatter (`os_date` with a
pattern), together with the stack/table helpers `setfield`,
`setboolfield`, `getfield`, `getboolfield`.

Modelling conventions:
* The script engine's value stack and table API are external
  collaborators; a table is modelled as a total function from string
  keys to values (`String → LuaVal`), absent keys mapping to `vnil`.
  The engine's number-to-integer conversion (`lua_tointeger`, outside
  `src/`) is modelled as the identity on integer-valued fields.
* Lua strings are byte strings; they are modelled as `String` with each
  `Char` standing for one byte (all concrete inputs used are ASCII).
* The OS calendar primitives (`localtime`/`gmtime`, `mktime`,
  `strftime`) are outside the repository and are passed in as oracles:
  decomposition results are `Option Tm`, normalisation is a function
  `Tm → Int` (with `-1` meaning failure, as in C), and the renderer is
  a function from the buffer capacity to the text it writes (empty
  text standing for a zero-length report).
* `MSize` is a 32-bit unsigned integer; its arithmetic is `Nat`
  arithmetic modulo `2^32` (`msize`).
-/

set_option autoImplicit false

/-- A value held in an engine table slot: nil, boolean, number or
string.  Numbers are modelled as integers (the fields the library
reads and writes are calendar integers). -/
inductive LuaVal where
  | vnil
  | vbool (b : Bool)
  | vnum (n : Int)
  | vstr (s : String)
deriving DecidableEq

/-- A value pushed on the engine stack by the library. -/
inductive Pushed where
  | nilv
  | num (n : Int)
  | str (s : String)
  | tab (t : String → LuaVal)

/-- The C `struct tm` fields used by the library (all C `int`s). -/
structure Tm where
  tm_sec : Int
  tm_min : Int
  tm_hour : Int
  tm_mday : Int
  tm_mon : Int
  tm_year : Int
  tm_wday : Int
  tm_yday : Int
  tm_isdst : Int

/-- `lua_toboolean`: everything except `nil` and `false` is true. -/
def lua_toboolean : LuaVal → Bool
  | .vnil => false
  | .vbool b => b
  | _ => true

/-- `lua_isnumber`, restricted to the modelled value domain. -/
def lua_isnumber : LuaVal → Bool
  | .vnum _ => true
  | _ => false

/-- `setfield` (lib_os.c:48): store an integer under `key`. -/
def setfield (t : String → LuaVal) (key : String) (value : Int) :
    String → LuaVal :=
  fun k => if k = key then .vnum value else t k

/-- `setboolfield` (lib_os.c:54): a negative value means "undefined"
and leaves the field unset; otherwise the field becomes the boolean
`value ≠ 0`. -/
def setboolfield (t : String → LuaVal) (key : String) (value : Int) :
    String → LuaVal :=
  if value < 0 then t
  else fun k => if k = key then .vbool (value != 0) else t k

/-- `getboolfield` (lib_os.c:62): `-1` for an absent (nil) field, else
the truthiness of the stored value as `0` or `1`. -/
def getboolfield (t : String → LuaVal) (key : String) : Int :=
  match t key with
  | .vnil => -1
  | v => if lua_toboolean v then 1 else 0

/-- `getfield` (lib_os.c:71): a numeric field is read directly; a
non-numeric (in particular absent) field yields the default `d`, and a
negative default marks the field as required: the library raises the
`LJ_ERR_OSDATEF` error naming the field, modelled as `Except.error key`. -/
def getfield (t : String → LuaVal) (key : String) (d : Int) :
    Except String Int :=
  match t key with
  | .vnum n => .ok n
  | _ => if d < 0 then .error key else .ok d

/-- The table→`struct tm` half of `os_time` (lib_os.c:153-159): reads
`sec`, `min`, `hour`, `day`, `month`, `year`, `isdst` in that order.
`tm_wday`/`tm_yday` are left uninitialised by the C code and ignored
by `mktime`; the model fixes them to `0`. -/
def tmFromTable (t : String → LuaVal) : Except String Tm := do
  let sec ← getfield t "sec" 0
  let min ← getfield t "min" 0
  let hour ← getfield t "hour" 12
  let day ← getfield t "day" (-1)
  let mon ← getfield t "month" (-1)
  let year ← getfield t "year" (-1)
  pure { tm_sec := sec, tm_min := min, tm_hour := hour,
         tm_mday := day, tm_mon := mon - 1, tm_year := year - 1900,
         tm_wday := 0, tm_yday := 0, tm_isdst := getboolfield t "isdst" }

/-- `os_time` (lib_os.c:144): with no argument the current time is
used; with a table the table is decoded and normalised by the `mktime`
oracle.  A result of `-1` pushes nil, anything else pushes the number. -/
def os_time (now : Int) (mktime : Tm → Int)
    (arg : Option (String → LuaVal)) : Except String (List Pushed) :=
  match arg with
  | none => if now = -1 then .ok [.nilv] else .ok [.num now]
  | some t =>
    match tmFromTable t with
    | .error e => .error e
    | .ok ts =>
      let r := mktime ts
      if r = -1 then .ok [.nilv] else .ok [.num r]

/-- The modulus of `MSize` (a 32-bit unsigned integer). -/
def msize : Nat := 4294967296

/-- The per-byte weight of the initial capacity estimate
(lib_os.c:126): `30` for a `%`, `1` for anything else. -/
def patWeight (c : Char) : Nat := if c = '%' then 30 else 1

/-- The initial capacity estimate (lib_os.c:123-126): the weights are
accumulated into an `MSize`, so every addition wraps modulo `2^32`
("Overflow doesn't matter"). -/
def szEstimate (s : String) : Nat :=
  s.data.foldl (fun sz c => (sz + patWeight c) % msize) 0

/-- The capacity growth step between render attempts (lib_os.c:136):
`sz += (sz|1)` on an `MSize`, i.e. wrapping modulo `2^32`. -/
def grow (sz : Nat) : Nat := (sz + (sz ||| 1)) % msize

/-- The render/retry loop of `os_date` (lib_os.c:128-137).  The engine
buffer (`lj_buf_need`/`sbufsz`, outside `src/`) is modelled from the
spec as a buffer of exactly the requested capacity, and `strftime` as
an oracle `render` from that capacity to the text written (`""` for a
zero-length report).  Returns the successfully rendered text, if any,
together with the list of capacities passed to the renderer, in order. -/
def dateLoop (render : Nat → String) : Nat → Nat → Option String × List Nat
  | _, 0 => (none, [])
  | sz, retry + 1 =>
    let out := render sz
    if out.length ≠ 0 then (some out, [sz])
    else
      let p := dateLoop render (grow sz) retry
      (p.1, sz :: p.2)

/-- The `"*t"` branch of `os_date` (lib_os.c:111-120): a fresh table
filled by `setfield`/`setboolfield` in source order. -/
def dateTable (stm : Tm) : String → LuaVal :=
  let t0 : String → LuaVal := fun _ => .vnil
  let t1 := setfield t0 "sec" stm.tm_sec
  let t2 := setfield t1 "min" stm.tm_min
  let t3 := setfield t2 "hour" stm.tm_hour
  let t4 := setfield t3 "day" stm.tm_mday
  let t5 := setfield t4 "month" (stm.tm_mon + 1)
  let t6 := setfield t5 "year" (stm.tm_year + 1900)
  let t7 := setfield t6 "wday" (stm.tm_wday + 1)
  let t8 := setfield t7 "yday" (stm.tm_yday + 1)
  setboolfield t8 "isdst" stm.tm_isdst

/-- The UTC-marker handling of `os_date` (lib_os.c:94-95): a leading
`'!'` is stripped and selects UTC decomposition. -/
def stripUTC (s : String) : Bool × String :=
  match s.data with
  | c :: rest => if c = '!' then (true, String.mk rest) else (false, s)
  | [] => (false, s)

/-- `os_date` (lib_os.c:86-142).  `convLoc`/`convUtc` are the
`localtime`/`gmtime` oracles for the requested instant (`none` for a
`NULL` result), `render stm s` the `strftime` oracle for the struct
`stm` and stripped pattern `s`.  Returns the values pushed on the
stack together with the list of capacities passed to the renderer. -/
def os_date (convLoc convUtc : Option Tm)
    (render : Tm → String → Nat → String) (s0 : String) :
    List Pushed × List Nat :=
  let p := stripUTC s0
  let s := p.2
  match if p.1 then convUtc else convLoc with
  | none => ([.nilv], [])
  | some stm =>
    if s = "*t" then ([.tab (dateTable stm)], [])
    else if s.data ≠ [] then
      let r := dateLoop (render stm s) (szEstimate s) 4
      ((match r.1 with | some out => [.str out] | none => []), r.2)
    else ([.str ""], [])

/-- Modelled from the spec (§4.2 step 5): a rendering primitive whose
true output for the given pattern and calendar value is `out`; it
reports the full output when it fits the capacity and a zero-length
result otherwise. -/
def renderFits (out : String) (cap : Nat) : String :=
  if out.length ≤ cap then out else ""

/-- The capacity estimate as the spec's words state it (C5): the plain
sum of the per-byte weights, with no machine-width reduction. -/
def specUnits (s : String) : Nat := (s.data.map patWeight).sum

/-- `t` with every non-numeric value of a field other than `isdst`
replaced by nil, i.e. made absent.  Used to state that `os_time`
treats present-but-non-numeric calendar fields exactly like absent
ones. -/
def blankNonNumeric (t : String → LuaVal) : String → LuaVal :=
  fun k =>
    if k = "isdst" then t k
    else if lua_isnumber (t k) then t k else .vnil

/-- A fixed concrete calendar struct used by the concrete instances. -/
def tmW : Tm :=
  { tm_sec := 7, tm_min := 30, tm_hour := 14, tm_mday := 25,
    tm_mon := 11, tm_year := 95, tm_wday := 1, tm_yday := 358,
    tm_isdst := 0 }

/-- An entirely empty table. -/
def tabEmpty : String → LuaVal := fun _ => .vnil

/-- A table carrying only `day`, `month` and `year`. -/
def tabDMY : String → LuaVal := fun k =>
  if k = "day" then .vnum 8
  else if k = "month" then .vnum 2
  else if k = "year" then .vnum 1982 else .vnil

/-- A table carrying only `hour` (the spec's §8 example). -/
def tabHour : String → LuaVal := fun k =>
  if k = "hour" then .vnum 5 else .vnil

/-- A table carrying only `day`. -/
def tabD : String → LuaVal := fun k =>
  if k = "day" then .vnum 1 else .vnil

/-- A table carrying only `day` and `month`. -/
def tabDM : String → LuaVal := fun k =>
  if k = "day" then .vnum 1
  else if k = "month" then .vnum 1 else .vnil

/-- `day`, `month`, `year` and the number `0` stored under `isdst`. -/
def tabDMY0 : String → LuaVal := fun k =>
  if k = "isdst" then .vnum 0 else tabDMY k

/-- A table whose every field holds the boolean `true`. -/
def tabAllTrue : String → LuaVal := fun _ => .vbool true

/- ### Basic lemmas about the monadic plumbing and `getfield` -/

theorem okBind {α β : Type} (a : α) (f : α → Except String β) :
    (Except.ok a >>= f) = f a := rfl

theorem errBind {α β : Type} (e : String) (f : α → Except String β) :
    ((Except.error e : Except String α) >>= f) = Except.error e := rfl

theorem lua_isnumber_true {v : LuaVal} (h : lua_isnumber v = true) :
    ∃ n : Int, v = .vnum n := by
  cases v <;> simp_all [lua_isnumber]

theorem getfield_isOk (t : String → LuaVal) (k : String) (d : Int)
    (hd : ¬ d < 0) : ∃ v, getfield t k d = .ok v := by
  unfold getfield
  cases t k <;> simp [hd]

theorem getfield_req_err (t : String → LuaVal) (k : String)
    (h : lua_isnumber (t k) = false) :
    getfield t k (-1) = .error k := by
  unfold getfield
  cases ht : t k <;> simp_all [lua_isnumber]

theorem getfield_num (t : String → LuaVal) (k : String) (d n : Int)
    (h : t k = .vnum n) : getfield t k d = .ok n := by
  simp [getfield, h]

theorem getfield_absent (t : String → LuaVal) (k : String) (d : Int)
    (h : lua_isnumber (t k) = false) :
    getfield t k d = if d < 0 then .error k else .ok d := by
  unfold getfield
  cases ht : t k <;> simp_all [lua_isnumber]

theorem tmFromTable_err_day (t : String → LuaVal)
    (h : lua_isnumber (t "day") = false) :
    tmFromTable t = .error "day" := by
  obtain ⟨v1, h1⟩ := getfield_isOk t "sec" 0 (by norm_num)
  obtain ⟨v2, h2⟩ := getfield_isOk t "min" 0 (by norm_num)
  obtain ⟨v3, h3⟩ := getfield_isOk t "hour" 12 (by norm_num)
  simp [tmFromTable, h1, h2, h3, okBind, errBind, getfield_req_err t "day" h]

theorem tmFromTable_err_month (t : String → LuaVal)
    (hday : lua_isnumber (t "day") = true)
    (h : lua_isnumber (t "month") = false) :
    tmFromTable t = .error "month" := by
  obtain ⟨v1, h1⟩ := getfield_isOk t "sec" 0 (by norm_num)
  obtain ⟨v2, h2⟩ := getfield_isOk t "min" 0 (by norm_num)
  obtain ⟨v3, h3⟩ := getfield_isOk t "hour" 12 (by norm_num)
  obtain ⟨n, hn⟩ := lua_isnumber_true hday
  simp [tmFromTable, h1, h2, h3, getfield_num t "day" (-1) n hn, okBind,
    errBind, getfield_req_err t "month" h]

theorem tmFromTable_err_year (t : String → LuaVal)
    (hday : lua_isnumber (t "day") = true)
    (hmon : lua_isnumber (t "month") = true)
    (h : lua_isnumber (t "year") = false) :
    tmFromTable t = .error "year" := by
  obtain ⟨v1, h1⟩ := getfield_isOk t "sec" 0 (by norm_num)
  obtain ⟨v2, h2⟩ := getfield_isOk t "min" 0 (by norm_num)
  obtain ⟨v3, h3⟩ := getfield_isOk t "hour" 12 (by norm_num)
  obtain ⟨n, hn⟩ := lua_isnumber_true hday
  obtain ⟨m, hm⟩ := lua_isnumber_true hmon
  simp [tmFromTable, h1, h2, h3, getfield_num t "day" (-1) n hn,
    getfield_num t "month" (-1) m hm, okBind, errBind,
    getfield_req_err t "year" h]

/- ### Claim theorems: the `os_time` (compose) side -/

/-- C2: in `os_time` with a table argument, absence of `day`, `month`
or `year` raises a hard error naming that missing field, while absent
`sec`, `min`, `hour` default silently to `0`, `0`, `12` and absent
`isdst` defaults to the unknown state `-1`; a missing required field
is never silently substituted. -/
theorem os_time_required_fields_and_defaults (t : String → LuaVal) :
    (lua_isnumber (t "day") = false → tmFromTable t = .error "day") ∧
    (lua_isnumber (t "day") = true → lua_isnumber (t "month") = false →
      tmFromTable t = .error "month") ∧
    (lua_isnumber (t "day") = true → lua_isnumber (t "month") = true →
      lua_isnumber (t "year") = false → tmFromTable t = .error "year") ∧
    (∀ d m y : Int, t "sec" = .vnil → t "min" = .vnil → t "hour" = .vnil →
      t "isdst" = .vnil → t "day" = .vnum d → t "month" = .vnum m →
      t "year" = .vnum y →
      tmFromTable t =
        .ok { tm_sec := 0, tm_min := 0, tm_hour := 12, tm_mday := d,
              tm_mon := m - 1, tm_year := y - 1900, tm_wday := 0,
              tm_yday := 0, tm_isdst := -1 }) := by
  refine ⟨tmFromTable_err_day t, tmFromTable_err_month t,
    tmFromTable_err_year t, ?_⟩
  intro d m y hsec hmin hhour hisdst hday hmon hyear
  simp [tmFromTable, getfield, getboolfield, hsec, hmin, hhour, hisdst,
    hday, hmon, hyear, okBind]

/-- C2 witness: the empty table fails naming `day`; a table with only
`day = 8`, `month = 2`, `year = 1982` composes with the silent
defaults `0`, `0`, `12` and unknown DST. -/
theorem os_time_required_fields_and_defaults_witness :
    tmFromTable tabEmpty = .error "day" ∧
    tmFromTable tabDMY =
      .ok { tm_sec := 0, tm_min := 0, tm_hour := 12, tm_mday := 8,
            tm_mon := 2 - 1, tm_year := 1982 - 1900, tm_wday := 0,
            tm_yday := 0, tm_isdst := -1 } :=
  ⟨(os_time_required_fields_and_defaults tabEmpty).1 (by decide),
   (os_time_required_fields_and_defaults tabDMY).2.2.2 8 2 1982
     (by decide) (by decide) (by decide) (by decide) (by decide)
     (by decide) (by decide)⟩

/-- C8: `os_time` reads the table fields in the fixed source order, so
when several required fields are absent the raised error names the
first absent one in the order `day`, `month`, `year` (a record missing
all three always reports `day`).  The conclusion holds for every
`mktime` oracle, i.e. the error is raised before the OS normalisation
primitive is ever consulted. -/
theorem os_time_field_order (now : Int) (mk1 : Tm → Int)
    (t : String → LuaVal) :
    (lua_isnumber (t "day") = false →
      os_time now mk1 (some t) = .error "day") ∧
    (lua_isnumber (t "day") = true → lua_isnumber (t "month") = false →
      os_time now mk1 (some t) = .error "month") ∧
    (lua_isnumber (t "day") = true → lua_isnumber (t "month") = true →
      lua_isnumber (t "year") = false →
      os_time now mk1 (some t) = .error "year") := by
  refine ⟨fun h => ?_, fun h1 h2 => ?_, fun h1 h2 h3 => ?_⟩
  · simp [os_time, tmFromTable_err_day t h]
  · simp [os_time, tmFromTable_err_month t h1 h2]
  · simp [os_time, tmFromTable_err_year t h1 h2 h3]

/-- C8 witness: a table holding only `hour = 5` reports `day`; adding
`day` makes it report `month`; adding `month` as well makes it report
`year` — for an arbitrary concrete `mktime` oracle. -/
theorem os_time_field_order_witness :
    os_time 5 (fun _ => 7) (some tabHour) = .error "day" ∧
    os_time 5 (fun _ => 7) (some tabD) = .error "month" ∧
    os_time 5 (fun _ => 7) (some tabDM) = .error "year" :=
  ⟨(os_time_field_order 5 (fun _ => 7) tabHour).1 (by decide),
   (os_time_field_order 5 (fun _ => 7) tabD).2.1 (by decide) (by decide),
   (os_time_field_order 5 (fun _ => 7) tabDM).2.2 (by decide) (by decide)
     (by decide)⟩

/-- C9: the `isdst` input of `os_time` is coerced by truthiness, not
by numeric value: nil yields the unknown state `-1`, the boolean
`false` yields `0`, and every other value — including the number `0` —
yields `1`; whenever composition succeeds, the struct's `tm_isdst` is
exactly this coercion of the field. -/
theorem os_time_isdst_truthiness (t : String → LuaVal) :
    (t "isdst" = .vnil → getboolfield t "isdst" = -1) ∧
    (t "isdst" = .vbool false → getboolfield t "isdst" = 0) ∧
    (t "isdst" = .vbool true → getboolfield t "isdst" = 1) ∧
    (∀ n : Int, t "isdst" = .vnum n → getboolfield t "isdst" = 1) ∧
    (∀ ts : Tm, tmFromTable t = .ok ts →
      ts.tm_isdst = getboolfield t "isdst") := by
  refine ⟨fun h => by simp [getboolfield, h],
    fun h => by simp [getboolfield, h, lua_toboolean],
    fun h => by simp [getboolfield, h, lua_toboolean],
    fun n h => by simp [getboolfield, h, lua_toboolean], ?_⟩
  intro ts h
  obtain ⟨v1, h1⟩ := getfield_isOk t "sec" 0 (by norm_num)
  obtain ⟨v2, h2⟩ := getfield_isOk t "min" 0 (by norm_num)
  obtain ⟨v3, h3⟩ := getfield_isOk t "hour" 12 (by norm_num)
  simp only [tmFromTable, h1, h2, h3, okBind] at h
  cases h4 : getfield t "day" (-1) <;> rw [h4] at h
  · simp [errBind] at h
  cases h5 : getfield t "month" (-1) <;> rw [h5] at h
  · simp [okBind, errBind] at h
  cases h6 : getfield t "year" (-1) <;> rw [h6] at h
  · simp [okBind, errBind] at h
  simp only [okBind] at h
  cases h
  rfl

/-- C9 witness: the number `0` stored under `isdst` coerces to `1`
("DST in effect"), both through `getboolfield` and through a full
composition carrying `day`/`month`/`year`. -/
theorem os_time_isdst_truthiness_witness :
    getboolfield tabDMY0 "isdst" = 1 ∧
    ({ tm_sec := 0, tm_min := 0, tm_hour := 12, tm_mday := 8,
       tm_mon := 2 - 1, tm_year := 1982 - 1900, tm_wday := 0,
       tm_yday := 0, tm_isdst := 1 } : Tm).tm_isdst =
      getboolfield tabDMY0 "isdst" :=
  ⟨(os_time_isdst_truthiness tabDMY0).2.2.2.1 0 (by decide),
   (os_time_isdst_truthiness tabDMY0).2.2.2.2 _ (by rfl)⟩

/-- C10: a field whose value is present but not a number is treated by
`os_time` exactly like an absent field: composing after blanking every
non-numeric calendar field changes nothing, and `getfield` on a
non-numeric slot yields the default for `d ≥ 0` and the
missing-required-field error for `d < 0` — there is no separate
type-mismatch error. -/
theorem os_time_nonnumeric_as_absent (t : String → LuaVal) :
    tmFromTable (blankNonNumeric t) = tmFromTable t ∧
    (∀ (k : String) (d : Int), lua_isnumber (t k) = false →
      getfield t k d = if d < 0 then .error k else .ok d) := by
  constructor
  · have hgf : ∀ (k : String) (d : Int), k ≠ "isdst" →
        getfield (blankNonNumeric t) k d = getfield t k d := by
      intro k d hk
      cases hnum : lua_isnumber (t k)
      · have hb : blankNonNumeric t k = .vnil := by
          simp [blankNonNumeric, hk, hnum]
        rw [getfield_absent t k d hnum,
          getfield_absent (blankNonNumeric t) k d (by rw [hb]; rfl)]
      · obtain ⟨n, hn⟩ := lua_isnumber_true hnum
        have hb : blankNonNumeric t k = .vnum n := by
          simp [blankNonNumeric, hk, hn, lua_isnumber]
        rw [getfield_num t k d n hn,
          getfield_num (blankNonNumeric t) k d n hb]
    have hgb : getboolfield (blankNonNumeric t) "isdst" =
        getboolfield t "isdst" := by
      simp [getboolfield, blankNonNumeric]
    simp [tmFromTable, hgf "sec" 0 (by decide), hgf "min" 0 (by decide),
      hgf "hour" 12 (by decide), hgf "day" (-1) (by decide),
      hgf "month" (-1) (by decide), hgf "year" (-1) (by decide), hgb]
  · intro k d h
    exact getfield_absent t k d h

/-- C10 witness: on a table whose every field is the boolean `true`,
a required field errors exactly as if absent, an optional field takes
its default, and blanking the non-numeric fields leaves composition
unchanged. -/
theorem os_time_nonnumeric_as_absent_witness :
    tmFromTable (blankNonNumeric tabAllTrue) = tmFromTable tabAllTrue ∧
    getfield tabAllTrue "day" (-1) =
      (if (-1 : Int) < 0 then .error "day" else .ok (-1)) ∧
    getfield tabAllTrue "hour" 12 =
      (if (12 : Int) < 0 then .error "hour" else .ok 12) :=
  ⟨(os_time_nonnumeric_as_absent tabAllTrue).1,
   (os_time_nonnumeric_as_absent tabAllTrue).2 "day" (-1) (by decide),
   (os_time_nonnumeric_as_absent tabAllTrue).2 "hour" 12 (by decide)⟩

/- ### Claim theorems: the `"*t"` (decompose) branch of `os_date` -/

/-- C3: the record returned by `os_date` for the `"*t"` pattern holds
exactly `sec`, `min`, `hour`, `day` straight from the OS struct,
`month` and `year` shifted by `+1` and `+1900`, `wday` and `yday`
shifted by `+1`, and `isdst` as a boolean when the raw value is
non-negative and absent (nil) when it is negative; no other key is
set. -/
theorem os_date_star_t_fields (stm : Tm) :
    (∀ (cu : Option Tm) (render : Tm → String → Nat → String),
      os_date (some stm) cu render "*t" =
        ([Pushed.tab (dateTable stm)], [])) ∧
    dateTable stm "sec" = .vnum stm.tm_sec ∧
    dateTable stm "min" = .vnum stm.tm_min ∧
    dateTable stm "hour" = .vnum stm.tm_hour ∧
    dateTable stm "day" = .vnum stm.tm_mday ∧
    dateTable stm "month" = .vnum (stm.tm_mon + 1) ∧
    dateTable stm "year" = .vnum (stm.tm_year + 1900) ∧
    dateTable stm "wday" = .vnum (stm.tm_wday + 1) ∧
    dateTable stm "yday" = .vnum (stm.tm_yday + 1) ∧
    dateTable stm "isdst" =
      (if stm.tm_isdst < 0 then LuaVal.vnil
       else .vbool (stm.tm_isdst != 0)) ∧
    (∀ k : String,
      k ∉ ["sec", "min", "hour", "day", "month", "year", "wday",
           "yday", "isdst"] →
      dateTable stm k = .vnil) := by
  refine ⟨fun cu render => rfl, ?_⟩
  by_cases hd : stm.tm_isdst < 0 <;>
    simp [dateTable, setfield, setboolfield, hd] <;>
    · intro k h1 h2 h3 h4 h5 h6 h7 h8 h9
      simp [h1, h2, h3, h4, h5, h6, h7, h8, h9]

/-- C3 witness: the record for a concrete struct, including a key the
record does not contain. -/
theorem os_date_star_t_fields_witness :
    os_date (some tmW) none (fun _ _ _ => "") "*t" =
      ([Pushed.tab (dateTable tmW)], []) ∧
    dateTable tmW "month" = .vnum (tmW.tm_mon + 1) ∧
    dateTable tmW "isdst" =
      (if tmW.tm_isdst < 0 then LuaVal.vnil
       else .vbool (tmW.tm_isdst != 0)) ∧
    dateTable tmW "foo" = .vnil :=
  ⟨(os_date_star_t_fields tmW).1 none (fun _ _ _ => ""),
   (os_date_star_t_fields tmW).2.2.2.2.2.1,
   (os_date_star_t_fields tmW).2.2.2.2.2.2.2.2.2.1,
   (os_date_star_t_fields tmW).2.2.2.2.2.2.2.2.2.2 "foo" (by decide)⟩

/- ### Claim theorems: the formatter branch of `os_date` -/

/-- C6: for every successfully decomposed instant, the empty pattern
(also after stripping a leading `'!'`) pushes the empty string and
passes no capacity to the rendering primitive: the render/retry loop
is never entered. -/
theorem os_date_empty_pattern (convLoc convUtc : Option Tm) (stm : Tm)
    (render : Tm → String → Nat → String) :
    os_date (some stm) convUtc render "" = ([Pushed.str ""], []) ∧
    os_date convLoc (some stm) render "!" = ([Pushed.str ""], []) :=
  ⟨rfl, rfl⟩

/-- The capacity sequence produced when every attempt fails: `sz`,
then the `grow`-iterates of `sz`. -/
def growTrace (sz : Nat) : Nat → List Nat
  | 0 => []
  | r + 1 => sz :: growTrace (grow sz) r

theorem dateLoop_allfail (render : Nat → String)
    (h : ∀ c, render c = "") :
    ∀ r sz : Nat, dateLoop render sz r = (none, growTrace sz r) := by
  intro r
  induction r with
  | zero => intro sz; rfl
  | succ n ih => intro sz; simp [dateLoop, growTrace, h, ih]

theorem dateLoop_trace_head (render : Nat → String) (sz r : Nat) :
    (dateLoop render sz (r + 1)).2.head? = some sz := by
  simp only [dateLoop]
  split <;> rfl

theorem dateLoop_trace_chain (render : Nat → String) :
    ∀ r sz : Nat,
      List.Chain' (fun a b => b = grow a) (dateLoop render sz r).2 := by
  intro r
  induction r with
  | zero => intro sz; simp [dateLoop]
  | succ n ih =>
    intro sz
    simp only [dateLoop]
    split
    · simp
    · refine List.Chain'.cons' (ih (grow sz)) ?_
      intro y hy
      cases n with
      | zero => simp [dateLoop] at hy
      | succ m =>
        rw [dateLoop_trace_head] at hy
        simp only [Option.mem_def, Option.some.injEq] at hy
        exact hy.symm

theorem os_date_trace_chain (convLoc convUtc : Option Tm)
    (render : Tm → String → Nat → String) (s0 : String) :
    List.Chain' (fun a b => b = grow a)
      (os_date convLoc convUtc render s0).2 := by
  simp only [os_date]
  split
  · simp
  · split
    · simp
    · split
      · exact dateLoop_trace_chain _ 4 _
      · simp

/-- C4: between render attempts of `os_date`, the capacity passed to
the renderer is updated by exactly `newSize = size + (size | 1)` in
the 32-bit unsigned width of `MSize` (wrapping modulo `2^32`): every
two consecutive entries of the capacity trace are related by that
growth function and nothing else. -/
theorem os_date_growth_rule (convLoc convUtc : Option Tm)
    (render : Tm → String → Nat → String) (s0 : String) (i : Nat)
    (h : i + 1 < (os_date convLoc convUtc render s0).2.length) :
    (os_date convLoc convUtc render s0).2.get ⟨i + 1, h⟩ =
      ((os_date convLoc convUtc render s0).2.get
          ⟨i, Nat.lt_of_succ_lt h⟩ +
        ((os_date convLoc convUtc render s0).2.get
          ⟨i, Nat.lt_of_succ_lt h⟩ ||| 1)) % msize := by
  have hc := os_date_trace_chain convLoc convUtc render s0
  rw [List.chain'_iff_get] at hc
  exact hc i (by omega)

/-- C4 witness: with a renderer that always reports zero length and
the pattern `"%p"`, the second attempted capacity is the growth of the
first. -/
theorem os_date_growth_rule_witness :
    (os_date (some tmW) none (fun _ _ _ => "") "%p").2.get
        ⟨0 + 1, by decide⟩ =
      ((os_date (some tmW) none (fun _ _ _ => "") "%p").2.get
          ⟨0, by decide⟩ +
        ((os_date (some tmW) none (fun _ _ _ => "") "%p").2.get
          ⟨0, by decide⟩ ||| 1)) % msize :=
  os_date_growth_rule (some tmW) none (fun _ _ _ => "") "%p" 0 (by decide)

/-- C1 counterexample: with an OS renderer that reports zero length at
every capacity, `os_date` on the pattern `"%p"` exhausts its 4
attempts and pushes nothing at all — in particular it does not push
the empty string the claim promises. -/
theorem os_date_render_exhausted_cex :
    (os_date (some tmW) none (fun _ _ _ => "") "%p").1 = [] ∧
    (os_date (some tmW) none (fun _ _ _ => "") "%p").1 ≠
      [Pushed.str ""] := by
  refine ⟨rfl, ?_⟩
  have h0 : (os_date (some tmW) none (fun _ _ _ => "") "%p").1 = [] := rfl
  rw [h0]
  exact fun hc => List.noConfusion hc

theorem stripUTC_no_bang (s : String) (hb : s.data.head? ≠ some '!') :
    stripUTC s = (false, s) := by
  unfold stripUTC
  cases hd : s.data with
  | nil => rfl
  | cons c rest =>
    rw [hd] at hb
    simp only [List.head?_cons, ne_eq, Option.some.injEq] at hb
    simp [hb]

/-- C1 as the code has it (amended): when every one of the 4 render
attempts reports a zero-length result, the render loop of `os_date`
exits without pushing any value — the operation yields no empty text
value (nor any other value); the attempted capacities are the four
`grow`-iterates of the initial estimate. -/
theorem os_date_render_exhausted (convUtc : Option Tm) (stm : Tm)
    (render : Tm → String → Nat → String) (s : String)
    (hb : s.data.head? ≠ some '!') (hne : s.data ≠ []) (hnt : s ≠ "*t")
    (h : ∀ c, render stm s c = "") :
    os_date (some stm) convUtc render s =
      ([], [szEstimate s, grow (szEstimate s), grow (grow (szEstimate s)),
            grow (grow (grow (szEstimate s)))]) := by
  have hl : dateLoop (render stm s) (szEstimate s) 4 =
      (none, [szEstimate s, grow (szEstimate s), grow (grow (szEstimate s)),
              grow (grow (grow (szEstimate s)))]) := by
    rw [dateLoop_allfail (render stm s) h 4 (szEstimate s)]
    rfl
  unfold os_date
  rw [stripUTC_no_bang s hb]
  simp [hl, hne, hnt]

/-- C1 witness: the always-zero renderer on pattern `"%d"` leaves the
pushed-value list empty after the four attempts. -/
theorem os_date_render_exhausted_witness :
    os_date (some tmW) none (fun _ _ _ => "") "%d" =
      ([], [szEstimate "%d", grow (szEstimate "%d"),
            grow (grow (szEstimate "%d")),
            grow (grow (grow (szEstimate "%d")))]) :=
  os_date_render_exhausted none tmW (fun _ _ _ => "") "%d" (by decide)
    (by decide) (by decide) (fun _ => rfl)

/- ### The capacity estimate (C5, C7) -/

theorem foldl_patWeight_mod (l : List Char) :
    ∀ a : Nat, a < msize →
      l.foldl (fun sz c => (sz + patWeight c) % msize) a =
        (a + (l.map patWeight).sum) % msize := by
  induction l with
  | nil => intro a ha; simp [Nat.mod_eq_of_lt ha]
  | cons c t ih =>
    intro a ha
    simp only [List.foldl_cons, List.map_cons, List.sum_cons]
    rw [ih ((a + patWeight c) % msize) (Nat.mod_lt _ (by norm_num [msize])),
      Nat.mod_add_mod, Nat.add_assoc]

theorem szEstimate_eq_specUnits_mod (s : String) :
    szEstimate s = specUnits s % msize := by
  have h := foldl_patWeight_mod s.data 0 (by norm_num [msize])
  simpa [szEstimate, specUnits] using h

theorem one_le_patWeight (c : Char) : 1 ≤ patWeight c := by
  unfold patWeight
  split <;> norm_num

theorem length_le_specUnits (s : String) : s.length ≤ specUnits s := by
  have h : ∀ i ∈ s.data.map patWeight, 1 ≤ i := by
    intro i hi
    simp only [List.mem_map] at hi
    obtain ⟨c, _, rfl⟩ := hi
    exact one_le_patWeight c
  have h2 := List.length_le_sum_of_one_le _ h
  rw [List.length_map] at h2
  exact h2

/-- C5 counterexample input: `2^27 + …` is not needed — a pattern of
144000000 `%` bytes is representable (LuaJIT strings may hold up to
about `2^31` bytes) and makes the 32-bit accumulation wrap. -/
def bigPat : String := String.mk (List.replicate 144000000 '%')

theorem specUnits_replicate_pct (n : Nat) :
    specUnits (String.mk (List.replicate n '%')) = n * 30 := by
  simp [specUnits, List.map_replicate, patWeight, List.sum_replicate]

/-- C5 counterexample: on the pattern of 144000000 `%` bytes the
computed estimate is `(144000000 * 30) % 2^32 = 25032704`, which is
neither the claimed plain weighted sum (`4320000000`) nor at least the
pattern length. -/
theorem szEstimate_overflow_cex :
    szEstimate bigPat ≠ specUnits bigPat ∧
    szEstimate bigPat < bigPat.length := by
  have h2 : specUnits bigPat = 144000000 * 30 := specUnits_replicate_pct _
  have h1 : szEstimate bigPat = (144000000 * 30) % msize := by
    rw [szEstimate_eq_specUnits_mod, h2]
  have h3 : bigPat.length = 144000000 := List.length_replicate _ _
  rw [h1, h2, h3]
  norm_num [msize]

/-- C5 (amended): the initial estimate equals the weighted sum (1 per
ordinary byte, 30 per `%`) reduced modulo `2^32`, because it is
accumulated in the 32-bit `MSize`; whenever the plain sum is below
`2^32` the estimate equals it exactly and is then at least the pattern
length and, for a non-empty pattern, at least 1. -/
theorem szEstimate_weighted_sum (s : String) :
    szEstimate s = specUnits s % msize ∧
    (specUnits s < msize →
      szEstimate s = specUnits s ∧ s.length ≤ szEstimate s ∧
      (s.data ≠ [] → 1 ≤ szEstimate s)) := by
  refine ⟨szEstimate_eq_specUnits_mod s, fun hlt => ?_⟩
  have he : szEstimate s = specUnits s := by
    rw [szEstimate_eq_specUnits_mod s, Nat.mod_eq_of_lt hlt]
  refine ⟨he, he ▸ length_le_specUnits s, fun hne => ?_⟩
  rw [he]
  cases hd : s.data with
  | nil => exact absurd hd hne
  | cons c r =>
    have hw := one_le_patWeight c
    simp only [specUnits, hd, List.map_cons, List.sum_cons]
    exact le_trans hw (Nat.le_add_right _ _)

/-- C5 witness: on the two-byte pattern `"%d"` the sum does not wrap,
the estimate is the weighted sum 31, at least the length and at
least 1. -/
theorem szEstimate_weighted_sum_witness :
    szEstimate "%d" = specUnits "%d" % msize ∧
    szEstimate "%d" = specUnits "%d" ∧
    ("%d").length ≤ szEstimate "%d" ∧ 1 ≤ szEstimate "%d" :=
  ⟨(szEstimate_weighted_sum "%d").1,
   ((szEstimate_weighted_sum "%d").2 (by decide)).1,
   ((szEstimate_weighted_sum "%d").2 (by decide)).2.1,
   ((szEstimate_weighted_sum "%d").2 (by decide)).2.2 (by decide)⟩

theorem specUnits_no_pct (s : String) (h : '%' ∉ s.data) :
    specUnits s = s.length := by
  have hmap : s.data.map patWeight = s.data.map (fun _ => 1) := by
    apply List.map_congr_left
    intro c hc
    unfold patWeight
    rw [if_neg]
    intro he
    exact h (he ▸ hc)
  unfold specUnits
  rw [hmap, List.map_const', List.sum_replicate, smul_eq_mul, mul_one]
  rfl

/-- C7: for a non-empty pattern with no `%` (and no leading `!`, and
not the `"*t"` sentinel) whose length is `MSize`-representable, and a
renderer that succeeds exactly when the true output — the pattern
itself, since it has no conversion specifier — fits the capacity,
`os_date` succeeds on the very first attempt: exactly one render call
is made, at the initial estimate `s.length`, and no growth retry
happens. -/
theorem os_date_plain_pattern_single_attempt (convUtc : Option Tm)
    (stm : Tm) (s : String) (hne : s.data ≠ [])
    (hb : s.data.head? ≠ some '!') (hnt : s ≠ "*t")
    (hnp : '%' ∉ s.data) (hlen : s.length < msize) :
    os_date (some stm) convUtc (fun _ _ => renderFits s) s =
      ([Pushed.str s], [s.length]) := by
  have hsz : szEstimate s = s.length := by
    rw [szEstimate_eq_specUnits_mod, specUnits_no_pct s hnp,
      Nat.mod_eq_of_lt hlen]
  have hlne : s.length ≠ 0 := fun h0 => hne (List.length_eq_zero.mp h0)
  have hloop : dateLoop (renderFits s) s.length 4 = (some s, [s.length]) := by
    have h4 : (4 : Nat) = 3 + 1 := rfl
    have hfit : renderFits s s.length = s := by simp [renderFits]
    rw [h4]
    simp [dateLoop, hfit, hlne]
  unfold os_date
  rw [stripUTC_no_bang s hb]
  simp [hsz, hloop, hne, hnt]

/-- C7 witness: the plain pattern `"abc"` renders on the first and
only attempt, with capacity 3. -/
theorem os_date_plain_pattern_single_attempt_witness :
    os_date (some tmW) none (fun _ _ => renderFits "abc") "abc" =
      ([Pushed.str "abc"], [("abc").length]) :=
  os_date_plain_pattern_single_attempt none tmW "abc" (by decide)
    (by decide) (by decide) (by decide) (by decide)
